import Mathlib

/-!
Shallow embedding of `RandomLiverCropMRIDataset`
(src/generative/data/liver_mri/liver_mri_data.py).

The Python class wraps a pandas table (loaded with the first column as the
row-key index), a list of sequence column names, a label column name, a
patch size, the torchio crop-or-pad transform configured at construction,
and an optional post-crop transform.  The external collaborators (pandas
readers, torchio decoders, the crop transform, torch.vstack) are modelled
as explicit environment parameters; the logic of the class itself
(format dispatch by substring, the two assertions, dict construction with
later inserts overwriting earlier ones, index resolution with Python
negative-index semantics, channel stacking in declaration order) is
translated statement by statement.
-/

set_option autoImplicit false

namespace LiverMRI

/-- A cell value of the table: a file-system path string. -/
abbrev ImgPath := String

/-- One intrinsic channel of a decoded volume: its flattened voxel payload. -/
structure VoxGrid where
  vals : List Int
deriving DecidableEq, Repr

/-- A decoded volume: torchio image data of shape (channels, *spatial),
modelled as a spatial shape plus one voxel grid per intrinsic channel. -/
structure Volume where
  spatial : List Nat
  chans : List VoxGrid
deriving DecidableEq, Repr

/-- The tensor shape of a volume: leading channel dimension, then the
spatial dimensions. -/
def Volume.shape (v : Volume) : List Nat := v.chans.length :: v.spatial

/-- One parsed table row: its native row key (first column of the file)
and its named cells. -/
structure Row where
  key : String
  cells : String → ImgPath

/-- A parsed table, as produced by the external reader with the first
column consumed as the row-key index: the remaining column names and the
rows in file order. -/
structure Table where
  cols : List String
  rows : List Row

/-- The row-key index of the table (pandas `df.index`), in row order. -/
def Table.rowKeys (t : Table) : List String := t.rows.map Row.key

/-- `df.index[i]` with Python integer-indexing semantics: nonnegative
positions index from the front, positions in `[-n, -1]` index from the
back, anything else is an IndexError (`none`). -/
def Table.indexAt (t : Table) (i : Int) : Option String :=
  let n : Int := (t.rows.length : Int)
  if 0 ≤ i ∧ i < n then t.rowKeys.get? i.toNat
  else if -n ≤ i ∧ i < 0 then t.rowKeys.get? (n + i).toNat
  else none

/-- `df.at[key, col]`: row-key-based scalar cell access, resolving the
first row whose key matches.  The class only ever calls this with a key
taken from the index, so the missing-key default is unreachable there. -/
def Table.cellAt (t : Table) (key col : String) : ImgPath :=
  match t.rows.find? (fun r => r.key == key) with
  | some r => r.cells col
  | none => ""

/-- A torchio Subject, observed through lookup: the Python dict underlying
it maps member names to volumes. -/
abbrev SubjectMap := String → Option Volume

/-- Python dict assignment `m[k] = v`: later inserts overwrite earlier
bindings of the same key. -/
def SubjectMap.insert (m : SubjectMap) (k : String) (v : Volume) : SubjectMap :=
  fun q => if q = k then some v else m q

/-- The empty dict `{}` that `_load_subject` starts from. -/
def emptySubject : SubjectMap := fun _ => none

/-- The external imaging environment: the torchio scalar and label
decoders (`tio.ScalarImage`/`tio.LabelMap` composed with `.data`), and the
crop-or-pad transform.  The crop takes the random state it may consume,
the configured patch size and label list, and the subject. -/
structure ImgEnv where
  decodeScalar : ImgPath → Volume
  decodeLabel : ImgPath → Volume
  cropFn : Nat → List Nat → List String → SubjectMap → SubjectMap

/-- The external table readers (`pd.read_csv` / `pd.read_excel`, both with
`index_col=0`). -/
structure TableEnv where
  readCsv : String → Table
  readExcel : String → Table

/-- A construction-time failure of `__init__`. -/
inductive InitError where
  /-- Neither branch of the format dispatch ran, `self.df` was never
  assigned, and the first assertion line raises an AttributeError. -/
  | attributeNoDf : InitError
  /-- A Python `assert` failed with the given message. -/
  | assertionFailed : String → InitError
deriving DecidableEq, Repr

/-- A per-call failure of `__getitem__`. -/
inductive SampleErr where
  /-- `df.index[idx]` raised an IndexError. -/
  | indexOutOfRange : SampleErr
  /-- A subject member lookup raised a KeyError. -/
  | keyErr : SampleErr
  /-- `torch.vstack` rejected its argument list. -/
  | stackErr : SampleErr
deriving DecidableEq, Repr

/-- The constructed dataset object: the attributes `__init__` assigns,
with the crop instance represented by its configuration
(`patch_size` and `labels=[label_column]`). -/
structure Dataset where
  csvPath : String
  df : Table
  transform : Option (SubjectMap → SubjectMap)
  sequences : List String
  labelColumn : String
  patchSize : List Nat
  cropPatchSize : List Nat
  cropLabels : List String

/-- Python `needle in hay` on strings: substring containment. -/
def strContains (hay needle : String) : Bool :=
  decide (List.IsInfix needle.data hay.data)

/-- Suffix test on strings, used to state claims about file-name
extensions. -/
def strEndsWith (hay suff : String) : Bool :=
  decide (List.IsSuffix suff.data hay.data)

/-- The format dispatch of `__init__`: `if '.csv' in csv_path: read_csv
... elif '.xlsx' in csv_path: read_excel`; no else branch, so an
unrecognized path leaves `self.df` unassigned (`none`). -/
def selectTable (tenv : TableEnv) (csvPath : String) : Option Table :=
  if strContains csvPath ".csv" then some (tenv.readCsv csvPath)
  else if strContains csvPath ".xlsx" then some (tenv.readExcel csvPath)
  else none

/-- The validation and attribute assignment of `__init__`, given the
loaded table: the label-column assertion runs first with its message
naming the label column, then the single assertion over all sequences
with its fixed message; on success the attributes are stored, the crop
configured with `patch_size` and `labels=[label_column]`. -/
def validateInit (df : Table) (csvPath : String) (sequences : List String)
    (labelColumn : String) (patchSize : List Nat)
    (transform : Option (SubjectMap → SubjectMap)) : Except InitError Dataset :=
  if labelColumn ∈ df.cols then
    if ∀ s ∈ sequences, s ∈ df.cols then
      .ok { csvPath := csvPath, df := df, transform := transform,
            sequences := sequences, labelColumn := labelColumn,
            patchSize := patchSize, cropPatchSize := patchSize,
            cropLabels := [labelColumn] }
    else .error (.assertionFailed "One or more sequences not in csv file")
  else .error (.assertionFailed ("Label column " ++ labelColumn ++ " not in csv file"))

/-- `__init__`: format dispatch, then validation and attribute
assignment.  An unrecognized path surfaces as the AttributeError raised
when the first assertion touches the never-assigned `self.df`. -/
def mkDataset (tenv : TableEnv) (csvPath : String) (sequences : List String)
    (labelColumn : String) (patchSize : List Nat)
    (transform : Option (SubjectMap → SubjectMap)) : Except InitError Dataset :=
  match selectTable tenv csvPath with
  | none => .error .attributeNoDf
  | some df => validateInit df csvPath sequences labelColumn patchSize transform

/-- `__len__`: `len(self.df)`, the number of rows. -/
def lengthD (d : Dataset) : Nat := d.df.rows.length

/-- `_load_subject`: build the dict by inserting, for each sequence in
declared order, the scalar decode of that cell, then insert the label
decode under the label column name (overwriting any earlier binding of
that name), and wrap it as a subject. -/
def loadSubject (env : ImgEnv) (d : Dataset) (key : String) : SubjectMap :=
  let m := d.sequences.foldl
    (fun m s => m.insert s (env.decodeScalar (d.df.cellAt key s))) emptySubject
  m.insert d.labelColumn (env.decodeLabel (d.df.cellAt key d.labelColumn))

/-- The optional post-crop transform application
(`if self.transform: patch = self.transform(patch)`). -/
def applyTr (tr : Option (SubjectMap → SubjectMap)) (m : SubjectMap) : SubjectMap :=
  match tr with
  | some f => f m
  | none => m

/-- The patch produced for a row key: crop the loaded subject with the
configuration stored at construction, then apply the optional post-crop
transform. -/
def patchOf (env : ImgEnv) (seed : Nat) (d : Dataset) (key : String) : SubjectMap :=
  applyTr d.transform (env.cropFn seed d.cropPatchSize d.cropLabels (loadSubject env d key))

/-- The list comprehension `[patch[s].data for s in self.sequences]`,
evaluated left to right, raising a KeyError at the first missing member. -/
def collectParts (m : SubjectMap) : List String → Except SampleErr (List Volume)
  | [] => .ok []
  | s :: rest =>
    match m s with
    | none => .error .keyErr
    | some v =>
      match collectParts m rest with
      | .error e => .error e
      | .ok vs => .ok (v :: vs)

/-- `torch.vstack`: concatenation along the leading (channel) axis; it
rejects an empty list and volumes whose trailing (spatial) dimensions
disagree. -/
def vstack : List Volume → Option Volume
  | [] => none
  | v :: vs =>
    if vs.all (fun w => decide (w.spatial = v.spatial)) then
      some ⟨v.spatial, ((v :: vs).map Volume.chans).flatten⟩
    else none

/-- The tensor extraction at the end of `__getitem__`: stack the patch
members named by the sequences, in declaration order, into the input
tensor, and take the label member as the label tensor. -/
def sampleOfPatch (d : Dataset) (patch : SubjectMap) :
    Except SampleErr (Volume × Volume) :=
  match collectParts patch d.sequences with
  | .error e => .error e
  | .ok parts =>
    match vstack parts with
    | none => .error .stackErr
    | some x =>
      match patch d.labelColumn with
      | none => .error .keyErr
      | some y => .ok (x, y)

/-- The body of `__getitem__` after the row key has been resolved: load
the subject, crop, optionally transform, then extract the tensor pair. -/
def sampleOfKey (env : ImgEnv) (seed : Nat) (d : Dataset) (key : String) :
    Except SampleErr (Volume × Volume) :=
  sampleOfPatch d (patchOf env seed d key)

/-- `__getitem__`: `df_idx = self.df.index[idx]`, then the sample body. -/
def getSample (env : ImgEnv) (seed : Nat) (d : Dataset) (idx : Int) :
    Except SampleErr (Volume × Volume) :=
  match d.df.indexAt idx with
  | none => .error .indexOutOfRange
  | some key => sampleOfKey env seed d key

/-- `__getitem__` with the object state threaded explicitly: each source
statement returns the (unchanged, since no statement assigns an
attribute) object alongside its value. -/
def getItemSt (env : ImgEnv) (seed : Nat) (d : Dataset) (idx : Int) :
    Except SampleErr (Volume × Volume) × Dataset :=
  match d.df.indexAt idx with
  | none => (.error .indexOutOfRange, d)
  | some key =>
    let patch := patchOf env seed d key
    match collectParts patch d.sequences with
    | .error e => (.error e, d)
    | .ok parts =>
      match vstack parts with
      | none => (.error .stackErr, d)
      | some x =>
        match patch d.labelColumn with
        | none => (.error .keyErr, d)
        | some y => (.ok (x, y), d)

/-- The error of a failed construction, if any. -/
def initErrOf : Except InitError Dataset → Option InitError
  | .error e => some e
  | .ok _ => none

instance : Inhabited VoxGrid := ⟨⟨[]⟩⟩

instance : Inhabited Volume := ⟨⟨[], []⟩⟩

instance {ε α : Type} [DecidableEq ε] [DecidableEq α] : DecidableEq (Except ε α) := fun a b =>
  match a, b with
  | .ok x, .ok y =>
    if h : x = y then .isTrue (by rw [h]) else .isFalse (by intro hc; cases hc; exact h rfl)
  | .error x, .error y =>
    if h : x = y then .isTrue (by rw [h]) else .isFalse (by intro hc; cases hc; exact h rfl)
  | .ok _, .error _ => .isFalse (by intro hc; cases hc)
  | .error _, .ok _ => .isFalse (by intro hc; cases hc)

/-! Concrete fixtures used to witness the hypothesised theorems: a
two-row table with columns T1, T2 and seg, decoders returning unit
shaped single-channel volumes, and a crop that acts as the identity
(the volumes already have the patch extent). -/

/-- A single-channel volume of spatial shape 1 by 1 by 1 holding one
voxel value. -/
def wVol (n : Int) : Volume := ⟨[1, 1, 1], [⟨[n]⟩]⟩

/-- First fixture row. -/
def wRow1 : Row := ⟨"r1", fun c => "disk1/" ++ c⟩

/-- Second fixture row. -/
def wRow2 : Row := ⟨"r2", fun c => "disk2/" ++ c⟩

/-- Fixture table: columns T1, T2, seg; rows r1 and r2. -/
def wTable : Table := ⟨["T1", "T2", "seg"], [wRow1, wRow2]⟩

/-- Fixture imaging environment with an identity crop. -/
def wEnv : ImgEnv := ⟨fun _ => wVol 5, fun _ => wVol 9, fun _ _ _ m => m⟩

/-- Fixture table readers, both returning the fixture table. -/
def wTenv : TableEnv := ⟨fun _ => wTable, fun _ => wTable⟩

/-- Fixture dataset as `__init__` would build it over the fixture table
with sequences [T1, T2], label column seg and patch size 1 by 1 by 1. -/
def wDataset : Dataset :=
  ⟨"t.csv", wTable, none, ["T1", "T2"], "seg", [1, 1, 1], [1, 1, 1], ["seg"]⟩

/-- Fixture subject with the members the fixture dataset declares, used
as the constant value of a reshaping crop. -/
def wSubject : SubjectMap := fun q =>
  if q = "seg" then some (wVol 9)
  else if q = "T1" ∨ q = "T2" then some (wVol 5) else none

/-- Fixture imaging environment whose crop returns the fixture subject
regardless of input and random state. -/
def wCropEnv : ImgEnv := ⟨fun _ => wVol 5, fun _ => wVol 9, fun _ _ _ _ => wSubject⟩

/-- Looking a key up after a left fold of dict inserts whose values are a
function of the inserted key: the result is the function value when the
key occurs in the list, the base dict otherwise. -/
theorem foldl_insert_lookup (f : String → Volume) (ss : List String) (m : SubjectMap)
    (q : String) :
    (ss.foldl (fun acc s => acc.insert s (f s)) m) q = if q ∈ ss then some (f q) else m q := by
  induction ss generalizing m with
  | nil => simp
  | cons s rest ih =>
    simp only [List.foldl_cons, ih]
    by_cases hq : q ∈ rest
    · simp [hq]
    · by_cases hqs : q = s
      · simp [hq, hqs, SubjectMap.insert]
      · simp [hq, hqs, SubjectMap.insert]

/-- Characterisation of the subject `_load_subject` builds: the label
column is bound to the label decode (overwriting any scalar decode of
the same name), every other declared sequence to its scalar decode, and
nothing else is bound. -/
theorem loadSubject_lookup (env : ImgEnv) (d : Dataset) (key : String) (q : String) :
    loadSubject env d key q =
      if q = d.labelColumn then some (env.decodeLabel (d.df.cellAt key d.labelColumn))
      else if q ∈ d.sequences then some (env.decodeScalar (d.df.cellAt key q))
      else none := by
  simp only [loadSubject, SubjectMap.insert]
  by_cases hq : q = d.labelColumn
  · simp [hq]
  · simp only [hq, if_false]
    exact foldl_insert_lookup (fun s => env.decodeScalar (d.df.cellAt key s))
      d.sequences emptySubject q

/-- Dict inserts at distinct keys commute. -/
theorem insert_insert_comm (m : SubjectMap) (a b : String) (x y : Volume) (hab : a ≠ b) :
    (m.insert a x).insert b y = (m.insert b y).insert a x := by
  funext q
  simp only [SubjectMap.insert]
  by_cases hqb : q = b <;> by_cases hqa : q = a
  · exact absurd (hqa.symm.trans hqb) hab
  · simp [hqa, hqb, Ne.symm hab]
  · simp [hqa, hqb, hab]
  · simp [hqa, hqb]

/-- The member comprehension succeeds and returns the members in
declaration order when every requested member is present. -/
theorem collectParts_eq_map (m : SubjectMap) (g : String → Volume) (ss : List String)
    (h : ∀ s ∈ ss, m s = some (g s)) :
    collectParts m ss = .ok (ss.map g) := by
  induction ss with
  | nil => rfl
  | cons s rest ih =>
    have hs : m s = some (g s) := h s (List.mem_cons_self s rest)
    have hr := ih (fun t ht => h t (List.mem_cons_of_mem s ht))
    simp [collectParts, hs, hr]

/-- Unfolding equation for the stack on a nonempty list. -/
theorem vstack_cons (v : Volume) (vs : List Volume) :
    vstack (v :: vs) =
      if vs.all (fun w => decide (w.spatial = v.spatial)) then
        some ⟨v.spatial, ((v :: vs).map Volume.chans).flatten⟩
      else none := rfl

/-- The stack succeeds on a nonempty list of volumes sharing one spatial
shape, concatenating the channel lists. -/
theorem vstack_of_spatial (p : Volume) (rest : List Volume) (sp : List Nat)
    (hp : p.spatial = sp) (hrest : ∀ v ∈ rest, v.spatial = sp) :
    vstack (p :: rest) = some ⟨sp, ((p :: rest).map Volume.chans).flatten⟩ := by
  have hall : (rest.all (fun w => decide (w.spatial = p.spatial))) = true := by
    rw [List.all_eq_true]
    intro v hv
    simp [hp, hrest v hv]
  rw [vstack_cons, if_pos hall, hp]

/-- Flattening the channel lists of single-channel volumes yields one
channel per volume. -/
theorem flatten_chans_length (parts : List Volume)
    (h : ∀ v ∈ parts, v.chans.length = 1) :
    ((parts.map Volume.chans).flatten).length = parts.length := by
  induction parts with
  | nil => rfl
  | cons v rest ih =>
    have hv : v.chans.length = 1 := h v (List.mem_cons_self v rest)
    have hr := ih (fun w hw => h w (List.mem_cons_of_mem v hw))
    simp only [List.map_cons, List.flatten_cons, List.length_append, hv, hr,
      List.length_cons]
    omega

/-- An in-range nonnegative ordinal resolves through the front branch of
the Python index access. -/
theorem indexAt_coe (t : Table) (i : Nat) (h : i < t.rows.length) :
    t.indexAt (i : Int) = t.rowKeys.get? i := by
  have h1 : 0 ≤ (i : Int) ∧ (i : Int) < (t.rows.length : Int) := by omega
  simp [Table.indexAt, h1]

/-- The Python index access depends on the table only through its
row-key sequence. -/
theorem indexAt_eq_of_rowKeys (t1 t2 : Table) (h : t1.rowKeys = t2.rowKeys) (i : Int) :
    t1.indexAt i = t2.indexAt i := by
  have hlen : t1.rows.length = t2.rows.length := by
    have hc := congrArg List.length h
    simpa [Table.rowKeys] using hc
  simp only [Table.indexAt, h, hlen]

/-- C10: table-format selection tests substring containment of the whole
path and tests the comma-separated pattern first: any path containing
".csv" anywhere is parsed by the csv reader (even when it ends in
".xlsx", as the third conjunct shows on a concrete such path), and the
spreadsheet reader is used only when ".csv" is absent and ".xlsx"
present. -/
theorem c10_format_substring_dispatch (tenv : TableEnv) (p : String)
    (sequences : List String) (labelColumn : String) (patchSize : List Nat)
    (tr : Option (SubjectMap → SubjectMap)) :
    (strContains p ".csv" = true →
      mkDataset tenv p sequences labelColumn patchSize tr =
        validateInit (tenv.readCsv p) p sequences labelColumn patchSize tr) ∧
    (strContains p ".csv" = false → strContains p ".xlsx" = true →
      mkDataset tenv p sequences labelColumn patchSize tr =
        validateInit (tenv.readExcel p) p sequences labelColumn patchSize tr) ∧
    (strEndsWith "a.csv.xlsx" ".xlsx" = true ∧
      mkDataset tenv "a.csv.xlsx" sequences labelColumn patchSize tr =
        validateInit (tenv.readCsv "a.csv.xlsx") "a.csv.xlsx" sequences labelColumn
          patchSize tr) := by
  refine ⟨fun h => ?_, fun h1 h2 => ?_, by decide, ?_⟩
  · simp [mkDataset, selectTable, h]
  · simp [mkDataset, selectTable, h1, h2]
  · have h : strContains "a.csv.xlsx" ".csv" = true := by decide
    simp [mkDataset, selectTable, h]

/-- Closed instance of C10: a concrete path containing ".csv" is routed
to the csv reader. -/
theorem c10_format_substring_dispatch_witness :
    mkDataset wTenv "t.csv" ["T1"] "seg" [1, 1, 1] none =
      validateInit (wTenv.readCsv "t.csv") "t.csv" ["T1"] "seg" [1, 1, 1] none :=
  (c10_format_substring_dispatch wTenv "t.csv" ["T1"] "seg" [1, 1, 1] none).1 (by decide)

/-- C4 counterexample: the path "data.csv.json" ends in the unrecognized
suffix ".json" (it neither ends in ".csv" nor in ".xlsx"), yet
construction does not fail: the substring test finds ".csv" inside the
path and parses the file as comma-separated. -/
theorem c4_counterexample :
    strEndsWith "data.csv.json" ".json" = true ∧
    strEndsWith "data.csv.json" ".csv" = false ∧
    strEndsWith "data.csv.json" ".xlsx" = false ∧
    (mkDataset wTenv "data.csv.json" ["T1"] "seg" [1, 1, 1] none).isOk = true := by
  decide

/-- C4 (amended): construction with a table-file path that contains
neither ".csv" nor ".xlsx" anywhere in it fails at construction time
(with the attribute error raised by the never-assigned table attribute,
standing for the unsupported-format failure) and never at access time:
no dataset value is produced, so no access is possible. -/
theorem c4_unsupported_format (tenv : TableEnv) (p : String)
    (sequences : List String) (labelColumn : String) (patchSize : List Nat)
    (tr : Option (SubjectMap → SubjectMap))
    (h1 : strContains p ".csv" = false) (h2 : strContains p ".xlsx" = false) :
    mkDataset tenv p sequences labelColumn patchSize tr = .error .attributeNoDf := by
  simp [mkDataset, selectTable, h1, h2]

/-- Closed instance of C4 (amended) at the path "data.json". -/
theorem c4_unsupported_format_witness :
    mkDataset wTenv "data.json" ["T1"] "seg" [1, 1, 1] none = .error .attributeNoDf :=
  c4_unsupported_format wTenv "data.json" ["T1"] "seg" [1, 1, 1] none
    (by decide) (by decide)

/-- C5 counterexample: with columns T1, T2, seg and declared channels
T1, T2x, T3x (label seg present), construction fails with the fixed
assertion message, which reports neither missing name: the error does
not list the missing columns together as the claim states. -/
theorem c5_counterexample :
    initErrOf (mkDataset wTenv "t.csv" ["T1", "T2x", "T3x"] "seg" [1, 1, 1] none) =
      some (.assertionFailed "One or more sequences not in csv file") ∧
    strContains "One or more sequences not in csv file" "T2x" = false ∧
    strContains "One or more sequences not in csv file" "T3x" = false := by
  decide

/-- C5 (amended): if the label column or any declared channel is absent
from the table columns, construction fails with an assertion error
before any row is loaded (the constructor takes no imaging environment,
so no volume decode can occur); the label column is checked first by its
own assertion whose message names only the label column, and the
declared channels are then checked together by a single assertion whose
fixed message does not report the missing names. -/
theorem c5_schema_failure (tenv : TableEnv) (p : String) (df : Table)
    (sequences : List String) (labelColumn : String) (patchSize : List Nat)
    (tr : Option (SubjectMap → SubjectMap))
    (hfmt : selectTable tenv p = some df)
    (hmiss : labelColumn ∉ df.cols ∨ ∃ s ∈ sequences, s ∉ df.cols) :
    ∃ msg, mkDataset tenv p sequences labelColumn patchSize tr =
        .error (.assertionFailed msg) ∧
      (labelColumn ∉ df.cols →
        msg = "Label column " ++ labelColumn ++ " not in csv file") ∧
      (labelColumn ∈ df.cols →
        msg = "One or more sequences not in csv file") := by
  simp only [mkDataset, hfmt]
  by_cases hl : labelColumn ∈ df.cols
  · have hs : ¬ ∀ s ∈ sequences, s ∈ df.cols := by
      rcases hmiss with hm | ⟨s, hs1, hs2⟩
      · exact absurd hl hm
      · exact fun hall => hs2 (hall s hs1)
    refine ⟨"One or more sequences not in csv file", ?_, fun hc => absurd hl hc, fun _ => rfl⟩
    simp [validateInit, hl, hs]
  · refine ⟨"Label column " ++ labelColumn ++ " not in csv file", ?_, fun _ => rfl,
      fun hc => absurd hc hl⟩
    simp [validateInit, hl]

/-- Closed instance of C5 (amended): label column present, channel T9
absent, construction fails with the fixed channel assertion message. -/
theorem c5_schema_failure_witness :
    ∃ msg, mkDataset wTenv "t.csv" ["T1", "T9"] "seg" [1, 1, 1] none =
        .error (.assertionFailed msg) ∧
      ("seg" ∉ wTable.cols → msg = "Label column " ++ "seg" ++ " not in csv file") ∧
      ("seg" ∈ wTable.cols → msg = "One or more sequences not in csv file") :=
  c5_schema_failure wTenv "t.csv" wTable ["T1", "T9"] "seg" [1, 1, 1] none
    rfl (Or.inr ⟨"T9", by decide, by decide⟩)

/-- C3 counterexample: on the two-row fixture dataset, the out-of-range
ordinal -1 does not raise: `df.index[-1]` resolves Python-style to the
last row key and a sample is returned. -/
theorem c3_counterexample :
    lengthD wDataset = 2 ∧ (getSample wEnv 0 wDataset (-1)).isOk = true := by
  decide

/-- C3 (amended): `getSample(length())` raises an out-of-range error, as
does every ordinal at or above `length()` or strictly below `-length()`;
but negative ordinals from `-length()` to -1 do not raise: they resolve
from the end of the index, `getSample(-1)` behaving as
`getSample(length()-1)`. -/
theorem c3_out_of_range (env : ImgEnv) (seed : Nat) (d : Dataset) :
    getSample env seed d (lengthD d : Int) = .error .indexOutOfRange ∧
    (∀ i : Int, ((lengthD d : Int) ≤ i ∨ i < -(lengthD d : Int)) →
      getSample env seed d i = .error .indexOutOfRange) ∧
    (0 < lengthD d →
      getSample env seed d (-1) = getSample env seed d ((lengthD d : Int) - 1)) := by
  have hnone : ∀ i : Int, ((lengthD d : Int) ≤ i ∨ i < -(lengthD d : Int)) →
      d.df.indexAt i = none := by
    intro i hi
    have hn : (d.df.rows.length : Int) = (lengthD d : Int) := rfl
    simp only [Table.indexAt, hn]
    have h1 : ¬(0 ≤ i ∧ i < (lengthD d : Int)) := by omega
    have h2 : ¬(-(lengthD d : Int) ≤ i ∧ i < 0) := by omega
    simp [h1, h2]
  refine ⟨?_, fun i hi => by simp [getSample, hnone i hi], fun hpos => ?_⟩
  · simp [getSample, hnone (lengthD d : Int) (Or.inl le_rfl)]
  · have heq : d.df.indexAt (-1) = d.df.indexAt ((lengthD d : Int) - 1) := by
      have hn : (d.df.rows.length : Int) = (lengthD d : Int) := rfl
      simp only [Table.indexAt, hn]
      have h1 : ¬(0 ≤ (-1 : Int) ∧ (-1 : Int) < (lengthD d : Int)) := by omega
      have h2 : -(lengthD d : Int) ≤ -1 ∧ (-1 : Int) < 0 := by omega
      have h3 : 0 ≤ (lengthD d : Int) - 1 ∧ (lengthD d : Int) - 1 < (lengthD d : Int) := by
        omega
      have h4 : ((lengthD d : Int) + -1).toNat = ((lengthD d : Int) - 1).toNat := by omega
      simp [h1, h2, h3, h4]
    simp [getSample, heq]

/-- Closed instance of C3 (amended) on the fixture dataset: ordinal 2
raises out-of-range and ordinal -1 behaves as ordinal 1. -/
theorem c3_out_of_range_witness :
    getSample wEnv 0 wDataset (lengthD wDataset : Int) = .error .indexOutOfRange ∧
    getSample wEnv 0 wDataset 5 = .error .indexOutOfRange ∧
    getSample wEnv 0 wDataset (-1) = getSample wEnv 0 wDataset ((lengthD wDataset : Int) - 1) := by
  obtain ⟨h1, h2, h3⟩ := c3_out_of_range wEnv 0 wDataset
  exact ⟨h1, h2 5 (by decide), h3 (by decide)⟩

/-- Flattening the channel lists of a map of single-channel volumes
yields the list of their unique channels. -/
theorem flatten_map_singleton (ss : List String) (g : String → Volume)
    (h : ∀ s, (g s).chans.length = 1) :
    ((ss.map g).map Volume.chans).flatten =
      ss.map (fun s => (g s).chans.getD 0 default) := by
  induction ss with
  | nil => rfl
  | cons s rest ih =>
    obtain ⟨c, hc⟩ := List.length_eq_one.mp (h s)
    simp only [List.map_cons, List.flatten_cons, hc, List.singleton_append, ih]
    simp [hc]

/-- C6: the length operation returns the number of rows of the loaded
table (equivalently the length of the row-key sequence), a valid ordinal
is resolved to the native row key at that position of the row-key
sequence in table order and the sample computed from that key, and the
sample depends on the table only through its row-key sequence and its
key-based cell accessor, never through positional access into the
columns. -/
theorem c6_length_and_row_key_lookup (env : ImgEnv) (seed : Nat) (d : Dataset) :
    lengthD d = d.df.rows.length ∧ lengthD d = d.df.rowKeys.length ∧
    (∀ (i : Nat) (k : String), d.df.rowKeys.get? i = some k →
      getSample env seed d (i : Int) = sampleOfKey env seed d k) ∧
    (∀ (t2 : Table) (idx : Int), d.df.rowKeys = t2.rowKeys →
      (∀ k c, d.df.cellAt k c = t2.cellAt k c) →
      getSample env seed d idx = getSample env seed { d with df := t2 } idx) := by
  refine ⟨rfl, by simp [lengthD, Table.rowKeys], fun i k hk => ?_, fun t2 idx hkeys hcell => ?_⟩
  · have hi : i < d.df.rowKeys.length := by
      by_contra hge
      rw [List.get?_eq_none.mpr (le_of_not_lt hge)] at hk
      exact Option.noConfusion hk
    have hi2 : i < d.df.rows.length := by simpa [Table.rowKeys] using hi
    have hidx : d.df.indexAt (i : Int) = some k := by
      rw [indexAt_coe d.df i hi2]
      exact hk
    simp [getSample, hidx]
  · have hsub : ∀ key, loadSubject env d key = loadSubject env { d with df := t2 } key := by
      intro key
      funext q
      rw [loadSubject_lookup, loadSubject_lookup]
      simp only [hcell]
    have hsok : ∀ key,
        sampleOfKey env seed d key = sampleOfKey env seed { d with df := t2 } key := by
      intro key
      rw [sampleOfKey, sampleOfKey, patchOf, patchOf, hsub key]
      exact rfl
    have hidx2 := indexAt_eq_of_rowKeys d.df t2 hkeys idx
    cases hkey : t2.indexAt idx with
    | none => simp [getSample, hidx2, hkey]
    | some key =>
      simp only [getSample, hidx2, hkey]
      exact hsok key

/-- Closed instance of C6 on the fixture dataset: length 2, and ordinal
1 resolves to the row key r2. -/
theorem c6_length_and_row_key_lookup_witness :
    lengthD wDataset = wDataset.df.rows.length ∧
    getSample wEnv 0 wDataset 1 = sampleOfKey wEnv 0 wDataset "r2" := by
  obtain ⟨h1, _, h3, _⟩ := c6_length_and_row_key_lookup wEnv 0 wDataset
  exact ⟨h1, h3 1 "r2" (by decide)⟩

/-- C8: a sample access leaves the dataset object unchanged: threading
the object state through every statement of the access returns the very
same object, whether the access returns a sample or fails, and the value
computed agrees with the stateless access. -/
theorem c8_no_state_change (env : ImgEnv) (seed : Nat) (d : Dataset) (idx : Int) :
    (getItemSt env seed d idx).2 = d ∧
    (getItemSt env seed d idx).1 = getSample env seed d idx := by
  cases hkey : d.df.indexAt idx with
  | none => simp [getItemSt, getSample, hkey]
  | some key =>
    simp only [getItemSt, getSample, hkey]
    cases hc : collectParts (patchOf env seed d key) d.sequences with
    | error e => simp [sampleOfKey, sampleOfPatch, hc]
    | ok parts =>
      cases hv : vstack parts with
      | none => simp [sampleOfKey, sampleOfPatch, hc, hv]
      | some x =>
        cases hy : patchOf env seed d key d.labelColumn with
        | none => simp [sampleOfKey, sampleOfPatch, hc, hv, hy]
        | some y => simp [sampleOfKey, sampleOfPatch, hc, hv, hy]

/-- C7: when the decoded volumes already have the patch extent (so the
crop has no positional freedom, which by the crop contract makes its
output independent of the random state) and no post-crop transform is
configured, two calls to the sample access for the same ordinal under
different random states return bit-identical results. -/
theorem c7_determinism_full_extent (env : ImgEnv) (d : Dataset) (idx : Int)
    (_htr : d.transform = none)
    (hS : ∀ p, (env.decodeScalar p).spatial = d.patchSize)
    (hLb : ∀ p, (env.decodeLabel p).spatial = d.patchSize)
    (hcrop : ∀ r1 r2 m, (∀ k v, m k = some v → v.spatial = d.patchSize) →
      env.cropFn r1 d.cropPatchSize d.cropLabels m =
        env.cropFn r2 d.cropPatchSize d.cropLabels m)
    (seed1 seed2 : Nat) :
    getSample env seed1 d idx = getSample env seed2 d idx := by
  have hsub : ∀ key k v, loadSubject env d key k = some v → v.spatial = d.patchSize := by
    intro key k v hv
    rw [loadSubject_lookup] at hv
    by_cases h1 : k = d.labelColumn
    · rw [if_pos h1] at hv
      cases hv
      exact hLb _
    · rw [if_neg h1] at hv
      by_cases h2 : k ∈ d.sequences
      · rw [if_pos h2] at hv
        cases hv
        exact hS _
      · rw [if_neg h2] at hv
        exact Option.noConfusion hv
  have hpatch : ∀ key, patchOf env seed1 d key = patchOf env seed2 d key := by
    intro key
    rw [patchOf, patchOf, hcrop seed1 seed2 _ (hsub key)]
  cases hkey : d.df.indexAt idx with
  | none => simp [getSample, hkey]
  | some key =>
    simp only [getSample, hkey]
    exact congrArg (sampleOfPatch d) (hpatch key)

/-- Closed instance of C7 on the fixture dataset, whose identity crop
ignores the random state: random states 1 and 2 give the same sample. -/
theorem c7_determinism_full_extent_witness :
    getSample wEnv 1 wDataset 0 = getSample wEnv 2 wDataset 0 :=
  c7_determinism_full_extent wEnv wDataset 0 rfl (fun _ => rfl) (fun _ => rfl)
    (fun _ _ _ _ => rfl) 1 2

/-- C1: for a valid ordinal, under the crop contract (every member of
the cropped subject has the patch extent, the declared channels as
single-channel volumes) and a post-crop transform preserving that
contract (trivially so when absent), the sample access returns a pair
whose input tensor has shape (number of sequences) :: patchSize and
whose label tensor has spatial dimensions equal to patchSize. -/
theorem c1_sample_shape (env : ImgEnv) (seed : Nat) (d : Dataset) (i : Nat) (key : String)
    (hseq : d.sequences ≠ [])
    (hkey : d.df.rowKeys.get? i = some key)
    (hcrop : ∀ r m, (∀ k, k ∈ d.sequences ∨ k = d.labelColumn → ∃ v, m k = some v) →
      (∀ s ∈ d.sequences, ∃ v,
          env.cropFn r d.cropPatchSize d.cropLabels m s = some v ∧
            v.spatial = d.patchSize ∧ v.chans.length = 1) ∧
        ∃ v, env.cropFn r d.cropPatchSize d.cropLabels m d.labelColumn = some v ∧
          v.spatial = d.patchSize)
    (htr : ∀ m,
      ((∀ s ∈ d.sequences, ∃ v, m s = some v ∧ v.spatial = d.patchSize ∧
          v.chans.length = 1) ∧
        ∃ v, m d.labelColumn = some v ∧ v.spatial = d.patchSize) →
      ((∀ s ∈ d.sequences, ∃ v, applyTr d.transform m s = some v ∧
          v.spatial = d.patchSize ∧ v.chans.length = 1) ∧
        ∃ v, applyTr d.transform m d.labelColumn = some v ∧ v.spatial = d.patchSize)) :
    ∃ x y, getSample env seed d (i : Int) = .ok (x, y) ∧
      x.shape = d.sequences.length :: d.patchSize ∧
      y.spatial = d.patchSize := by
  have hi : i < d.df.rowKeys.length := by
    by_contra hge
    rw [List.get?_eq_none.mpr (le_of_not_lt hge)] at hkey
    exact Option.noConfusion hkey
  have hi2 : i < d.df.rows.length := by simpa [Table.rowKeys] using hi
  have hidx : d.df.indexAt (i : Int) = some key := by
    rw [indexAt_coe d.df i hi2]
    exact hkey
  have hmem : ∀ k, k ∈ d.sequences ∨ k = d.labelColumn →
      ∃ v, loadSubject env d key k = some v := by
    intro k hk
    rw [loadSubject_lookup]
    by_cases hkl : k = d.labelColumn
    · exact ⟨env.decodeLabel (d.df.cellAt key d.labelColumn), by simp [hkl]⟩
    · have hks : k ∈ d.sequences := hk.resolve_right hkl
      exact ⟨env.decodeScalar (d.df.cellAt key k), by simp [hkl, hks]⟩
  have hp := htr _ (hcrop seed (loadSubject env d key) hmem)
  rw [← patchOf] at hp
  obtain ⟨hseqs, vy, hvy, hvysp⟩ := hp
  set patch := patchOf env seed d key with hpatch
  set g : String → Volume := fun s => (patch s).getD default with hg
  have hgs : ∀ s ∈ d.sequences, patch s = some (g s) ∧
      (g s).spatial = d.patchSize ∧ (g s).chans.length = 1 := by
    intro s hs
    obtain ⟨v, hv, hvsp, hv1⟩ := hseqs s hs
    have : g s = v := by rw [hg]; simp [hv]
    rw [this, hv]
    exact ⟨rfl, hvsp, hv1⟩
  have hparts : collectParts patch d.sequences = .ok (d.sequences.map g) :=
    collectParts_eq_map patch g d.sequences (fun s hs => (hgs s hs).1)
  obtain ⟨s0, ss, hs⟩ := List.exists_cons_of_ne_nil hseq
  have hvst : vstack (d.sequences.map g) =
      some ⟨d.patchSize, ((d.sequences.map g).map Volume.chans).flatten⟩ := by
    rw [hs, List.map_cons]
    refine vstack_of_spatial (g s0) (ss.map g) d.patchSize ?_ ?_
    · exact (hgs s0 (by rw [hs]; exact List.mem_cons_self s0 ss)).2.1
    · intro v hv
      obtain ⟨s, hsmem, rfl⟩ := List.mem_map.mp hv
      exact (hgs s (by rw [hs]; exact List.mem_cons_of_mem s0 hsmem)).2.1
  have hlen : (((d.sequences.map g).map Volume.chans).flatten).length =
      d.sequences.length := by
    rw [flatten_chans_length]
    · exact List.length_map d.sequences g
    · intro v hv
      obtain ⟨s, hsmem, rfl⟩ := List.mem_map.mp hv
      exact (hgs s hsmem).2.2
  refine ⟨⟨d.patchSize, ((d.sequences.map g).map Volume.chans).flatten⟩, vy, ?_, ?_, hvysp⟩
  · simp only [getSample, hidx, sampleOfKey, ← hpatch, sampleOfPatch, hparts, hvst, hvy]
  · simp only [Volume.shape, hlen]

/-- Closed instance of C1 on the fixture dataset with the reshaping
crop: ordinal 0 yields an input of shape [2, 1, 1, 1] and a label of
spatial shape [1, 1, 1]. -/
theorem c1_sample_shape_witness :
    ∃ x y, getSample wCropEnv 0 wDataset 0 = .ok (x, y) ∧
      x.shape = wDataset.sequences.length :: wDataset.patchSize ∧
      y.spatial = wDataset.patchSize := by
  refine c1_sample_shape wCropEnv 0 wDataset 0 "r1" (by decide) (by decide)
    (fun r m _ => ⟨?_, ⟨wVol 9, rfl, rfl⟩⟩) (fun m h => h)
  intro s hs
  fin_cases hs
  · exact ⟨wVol 5, rfl, rfl, rfl⟩
  · exact ⟨wVol 5, rfl, rfl, rfl⟩

/-- C2: channel order follows the declaration order of the sequences
list: over the same table, row, environment and random state, datasets
declared with sequences [a, b] and [b, a] (a and b distinct,
single-channel members) produce label-identical samples whose input
tensors are permutations of each other along the leading axis, with
channel 0 of the first equal to channel 1 of the second and
conversely. -/
theorem c2_channel_declaration_order (env : ImgEnv) (seed : Nat) (path : String)
    (df : Table) (tr : Option (SubjectMap → SubjectMap)) (a b labelColumn : String)
    (patchSize : List Nat) (idx : Int) (key : String) (va vb vl : Volume)
    (hab : a ≠ b)
    (hidx : df.indexAt idx = some key)
    (hA : patchOf env seed
      ⟨path, df, tr, [a, b], labelColumn, patchSize, patchSize, [labelColumn]⟩ key a =
        some va)
    (hB : patchOf env seed
      ⟨path, df, tr, [a, b], labelColumn, patchSize, patchSize, [labelColumn]⟩ key b =
        some vb)
    (hL : patchOf env seed
      ⟨path, df, tr, [a, b], labelColumn, patchSize, patchSize, [labelColumn]⟩ key
        labelColumn = some vl)
    (hsp : vb.spatial = va.spatial)
    (ha1 : va.chans.length = 1) (hb1 : vb.chans.length = 1) :
    ∃ xab y1 xba y2,
      getSample env seed
        ⟨path, df, tr, [a, b], labelColumn, patchSize, patchSize, [labelColumn]⟩ idx =
          .ok (xab, y1) ∧
      getSample env seed
        ⟨path, df, tr, [b, a], labelColumn, patchSize, patchSize, [labelColumn]⟩ idx =
          .ok (xba, y2) ∧
      y1 = y2 ∧
      xab.chans = va.chans ++ vb.chans ∧
      xba.chans = vb.chans ++ va.chans ∧
      List.Perm xab.chans xba.chans ∧
      xab.chans.get? 0 = xba.chans.get? 1 ∧
      xab.chans.get? 1 = xba.chans.get? 0 := by
  have hsubeq :
      loadSubject env
          ⟨path, df, tr, [a, b], labelColumn, patchSize, patchSize, [labelColumn]⟩ key =
        loadSubject env
          ⟨path, df, tr, [b, a], labelColumn, patchSize, patchSize, [labelColumn]⟩ key := by
    show ((emptySubject.insert a (env.decodeScalar (df.cellAt key a))).insert b
        (env.decodeScalar (df.cellAt key b))).insert labelColumn
        (env.decodeLabel (df.cellAt key labelColumn)) =
      ((emptySubject.insert b (env.decodeScalar (df.cellAt key b))).insert a
        (env.decodeScalar (df.cellAt key a))).insert labelColumn
        (env.decodeLabel (df.cellAt key labelColumn))
    rw [insert_insert_comm emptySubject a b _ _ hab]
  have hpatcheq :
      patchOf env seed
          ⟨path, df, tr, [a, b], labelColumn, patchSize, patchSize, [labelColumn]⟩ key =
        patchOf env seed
          ⟨path, df, tr, [b, a], labelColumn, patchSize, patchSize, [labelColumn]⟩ key := by
    rw [patchOf, patchOf, hsubeq]
  have hA2 := hpatcheq ▸ hA
  have hB2 := hpatcheq ▸ hB
  have hL2 := hpatcheq ▸ hL
  have hpab : collectParts (patchOf env seed
      ⟨path, df, tr, [a, b], labelColumn, patchSize, patchSize, [labelColumn]⟩ key)
      [a, b] = .ok [va, vb] := by
    simp [collectParts, hA, hB]
  have hpba : collectParts (patchOf env seed
      ⟨path, df, tr, [b, a], labelColumn, patchSize, patchSize, [labelColumn]⟩ key)
      [b, a] = .ok [vb, va] := by
    simp [collectParts, hA2, hB2]
  have hvab : vstack [va, vb] = some ⟨va.spatial, va.chans ++ vb.chans⟩ := by
    simp [vstack, hsp]
  have hvba : vstack [vb, va] = some ⟨vb.spatial, vb.chans ++ va.chans⟩ := by
    simp [vstack, hsp]
  obtain ⟨ga, hga⟩ := List.length_eq_one.mp ha1
  obtain ⟨gb, hgb⟩ := List.length_eq_one.mp hb1
  refine ⟨⟨va.spatial, va.chans ++ vb.chans⟩, vl, ⟨vb.spatial, vb.chans ++ va.chans⟩, vl,
    ?_, ?_, rfl, rfl, rfl, List.perm_append_comm, ?_, ?_⟩
  · simp only [getSample, hidx, sampleOfKey, sampleOfPatch, hpab, hvab, hL]
  · simp only [getSample, hidx, sampleOfKey, sampleOfPatch, hpba, hvba, hL2]
  · rw [hga, hgb]
    rfl
  · rw [hga, hgb]
    rfl

/-- Closed instance of C2 on the fixture table: sequences [T1, T2]
versus [T2, T1] with the identity crop. -/
theorem c2_channel_declaration_order_witness :
    ∃ xab y1 xba y2,
      getSample wEnv 0
        ⟨"t.csv", wTable, none, ["T1", "T2"], "seg", [1, 1, 1], [1, 1, 1], ["seg"]⟩ 0 =
          .ok (xab, y1) ∧
      getSample wEnv 0
        ⟨"t.csv", wTable, none, ["T2", "T1"], "seg", [1, 1, 1], [1, 1, 1], ["seg"]⟩ 0 =
          .ok (xba, y2) ∧
      y1 = y2 ∧
      xab.chans = (wVol 5).chans ++ (wVol 5).chans ∧
      xba.chans = (wVol 5).chans ++ (wVol 5).chans ∧
      List.Perm xab.chans xba.chans ∧
      xab.chans.get? 0 = xba.chans.get? 1 ∧
      xab.chans.get? 1 = xba.chans.get? 0 :=
  c2_channel_declaration_order wEnv 0 "t.csv" wTable none "T1" "T2" "seg"
    [1, 1, 1] 0 "r1" (wVol 5) (wVol 5) (wVol 9)
    (by decide) (by decide) (by decide) (by decide) (by decide) rfl rfl rfl

/-- C9: when the label column name is also a declared sequence, the
subject binds that name to the label decode only (the label insert
overwrites the earlier scalar insert in the dict), and consequently,
with a pass-through crop and no post-crop transform over single-channel
decodes of a common spatial shape, the channel of the stacked input at
the position of the label name in the sequences list holds the label
volume data, which is also the returned label tensor. -/
theorem c9_label_shadowing (env : ImgEnv) (seed : Nat) (d : Dataset) (i : Nat)
    (key : String) (sp : List Nat)
    (hmem : d.labelColumn ∈ d.sequences)
    (hkey : d.df.rowKeys.get? i = some key)
    (hcropId : ∀ r ps ls m, env.cropFn r ps ls m = m)
    (htrn : d.transform = none)
    (hS : ∀ p, (env.decodeScalar p).spatial = sp ∧ (env.decodeScalar p).chans.length = 1)
    (hLb : ∀ p, (env.decodeLabel p).spatial = sp ∧ (env.decodeLabel p).chans.length = 1) :
    loadSubject env d key d.labelColumn =
      some (env.decodeLabel (d.df.cellAt key d.labelColumn)) ∧
    ∃ x, getSample env seed d (i : Int) =
        .ok (x, env.decodeLabel (d.df.cellAt key d.labelColumn)) ∧
      x.chans.get? (List.indexOf d.labelColumn d.sequences) =
        (env.decodeLabel (d.df.cellAt key d.labelColumn)).chans.get? 0 := by
  have hsubL : loadSubject env d key d.labelColumn =
      some (env.decodeLabel (d.df.cellAt key d.labelColumn)) := by
    rw [loadSubject_lookup]
    simp
  have hi : i < d.df.rowKeys.length := by
    by_contra hge
    rw [List.get?_eq_none.mpr (le_of_not_lt hge)] at hkey
    exact Option.noConfusion hkey
  have hi2 : i < d.df.rows.length := by simpa [Table.rowKeys] using hi
  have hidx : d.df.indexAt (i : Int) = some key := by
    rw [indexAt_coe d.df i hi2]
    exact hkey
  have hpatch : patchOf env seed d key = loadSubject env d key := by
    rw [patchOf, hcropId, htrn]
    rfl
  set g : String → Volume := fun s =>
    if s = d.labelColumn then env.decodeLabel (d.df.cellAt key d.labelColumn)
    else env.decodeScalar (d.df.cellAt key s) with hgdef
  have hgs : ∀ s ∈ d.sequences, loadSubject env d key s = some (g s) := by
    intro s hs
    rw [loadSubject_lookup, hgdef]
    by_cases hsl : s = d.labelColumn
    · simp [hsl]
    · simp [hsl, hs]
  have hchan1 : ∀ s, (g s).chans.length = 1 := by
    intro s
    rw [hgdef]
    by_cases hsl : s = d.labelColumn
    · simp only [hsl, if_pos rfl]
      exact (hLb _).2
    · simp only [if_neg hsl]
      exact (hS _).2
  have hspat : ∀ s, (g s).spatial = sp := by
    intro s
    rw [hgdef]
    by_cases hsl : s = d.labelColumn
    · simp only [hsl, if_pos rfl]
      exact (hLb _).1
    · simp only [if_neg hsl]
      exact (hS _).1
  have hparts : collectParts (patchOf env seed d key) d.sequences =
      .ok (d.sequences.map g) := by
    rw [hpatch]
    exact collectParts_eq_map _ g d.sequences hgs
  obtain ⟨s0, ss, hs⟩ := List.exists_cons_of_ne_nil (List.ne_nil_of_mem hmem)
  have hvst : vstack (d.sequences.map g) =
      some ⟨sp, ((d.sequences.map g).map Volume.chans).flatten⟩ := by
    rw [hs, List.map_cons]
    refine vstack_of_spatial (g s0) (ss.map g) sp (hspat s0) ?_
    intro v hv
    obtain ⟨s, _, rfl⟩ := List.mem_map.mp hv
    exact hspat s
  have hflat : ((d.sequences.map g).map Volume.chans).flatten =
      d.sequences.map (fun s => (g s).chans.getD 0 default) :=
    flatten_map_singleton d.sequences g hchan1
  have hyL : patchOf env seed d key d.labelColumn =
      some (env.decodeLabel (d.df.cellAt key d.labelColumn)) := by
    rw [hpatch]
    exact hsubL
  refine ⟨hsubL, ⟨sp, ((d.sequences.map g).map Volume.chans).flatten⟩, ?_, ?_⟩
  · simp only [getSample, hidx, sampleOfKey, sampleOfPatch, hparts, hvst, hyL]
  · rw [hflat, List.get?_map, List.indexOf_get? hmem]
    have hgL : g d.labelColumn = env.decodeLabel (d.df.cellAt key d.labelColumn) := by
      rw [hgdef]
      simp
    obtain ⟨c, hc⟩ :=
      List.length_eq_one.mp (hLb (d.df.cellAt key d.labelColumn)).2
    simp [hgL, hc]

/-- Closed instance of C9: the fixture dataset declared with sequences
[T1, seg] and label column seg; the second input channel is the label
decode. -/
theorem c9_label_shadowing_witness :
    loadSubject wEnv ⟨"t.csv", wTable, none, ["T1", "seg"], "seg", [1, 1, 1],
        [1, 1, 1], ["seg"]⟩ "r1" "seg" =
      some (wEnv.decodeLabel (wTable.cellAt "r1" "seg")) ∧
    ∃ x, getSample wEnv 0 ⟨"t.csv", wTable, none, ["T1", "seg"], "seg", [1, 1, 1],
        [1, 1, 1], ["seg"]⟩ 0 =
        .ok (x, wEnv.decodeLabel (wTable.cellAt "r1" "seg")) ∧
      x.chans.get? (List.indexOf "seg" ["T1", "seg"]) =
        (wEnv.decodeLabel (wTable.cellAt "r1" "seg")).chans.get? 0 :=
  c9_label_shadowing wEnv 0
    ⟨"t.csv", wTable, none, ["T1", "seg"], "seg", [1, 1, 1], [1, 1, 1], ["seg"]⟩
    0 "r1" [1, 1, 1] (by decide) (by decide) (fun _ _ _ _ => rfl) rfl
    (fun _ => ⟨rfl, rfl⟩) (fun _ => ⟨rfl, rfl⟩)

end LiverMRI
